import Mathlib

/-!
Verification of the Etsy→Facebook feed synchronizer's resilient API client core:
token lifecycle management, the durable QPS/QPD rate limiter, retry backoff,
pagination, shop lookup, the OAuth callback, and token refresh persistence.

The definitions below are a shallow embedding of the TypeScript source:
machine clocks become explicit `Int` millisecond timestamps, the durable
key-value store becomes explicit state threading, HTTP calls become explicit
outcome parameters, and thrown errors become `Except`/sum results.
-/

namespace EtsyApp

/- ===================== Definitions ===================== -/

/-- Milliseconds before token expiry at which a refresh is triggered
(`TOKEN_EXPIRY_BUFFER_MS` in `lib/storage/edge-config.ts`: `5 * 60 * 1000`). -/
def TOKEN_EXPIRY_BUFFER_MS : Int := 5 * 60 * 1000

/-- Etsy token record (`EtsyTokens` in `lib/etsy/types.ts`).
`expires_at` is stored as an ISO string in the source; it is embedded here as
the epoch-millisecond value that `new Date(tokens.expires_at).getTime()`
recovers from it. -/
structure EtsyTokens where
  access_token : String
  refresh_token : String
  expires_at : Int
  user_id : String
  shop_id : Option String
deriving Repr, DecidableEq

/-- `isTokenExpired` (`lib/storage/edge-config.ts`): true when
`Date.now() >= expiresAt - TOKEN_EXPIRY_BUFFER_MS`. -/
def isTokenExpired (now : Int) (tokens : EtsyTokens) : Bool :=
  decide (tokens.expires_at - TOKEN_EXPIRY_BUFFER_MS ≤ now)

/-- Body of a successful response from the Etsy OAuth token endpoint
(`EtsyRefreshTokenResponse` in `lib/storage/edge-config.ts`). -/
structure EtsyRefreshTokenResponse where
  access_token : String
  token_type : String
  expires_in : Int
  refresh_token : String
deriving Repr, DecidableEq

/-- Outcome of one HTTP request: a parsed body, a non-ok status code, or a
network-level failure (rejected fetch). -/
inductive HttpOutcome (α : Type) where
  | ok (body : α)
  | httpError (status : Nat)
  | networkError
deriving Repr, DecidableEq

/-- `StorageError.code` values raised by `refreshAccessToken`. -/
inductive StorageErrorCode where
  | CONFIG_ERROR
  | REFRESH_TOKEN_EXPIRED
  | TOKEN_REFRESH_ERROR
deriving Repr, DecidableEq

/-- Result of `refreshAccessToken`, together with its observable effects:
how many requests reached the upstream token endpoint and which token
records were written to the durable store. -/
structure RefreshResult where
  result : Except StorageErrorCode EtsyTokens
  endpointCalls : Nat
  tokenWrites : List EtsyTokens

/-- `refreshAccessToken` (`lib/storage/edge-config.ts`). On a successful
refresh it builds `{...currentTokens, access_token, refresh_token,
expires_at: Date.now() + expires_in * 1000}` and performs exactly one durable
write of that record. On a 400/401 it raises `REFRESH_TOKEN_EXPIRED`; on any
other failing status or a network failure it raises `TOKEN_REFRESH_ERROR`. -/
def refreshAccessToken (apiKeySet : Bool) (currentTokens : EtsyTokens)
    (response : HttpOutcome EtsyRefreshTokenResponse) (now : Int) : RefreshResult :=
  if !apiKeySet then ⟨.error .CONFIG_ERROR, 0, []⟩
  else
    match response with
    | .httpError status =>
        if status == 400 || status == 401 then ⟨.error .REFRESH_TOKEN_EXPIRED, 1, []⟩
        else ⟨.error .TOKEN_REFRESH_ERROR, 1, []⟩
    | .networkError => ⟨.error .TOKEN_REFRESH_ERROR, 1, []⟩
    | .ok data =>
        let expiresAt := now + data.expires_in * 1000
        let updatedTokens : EtsyTokens :=
          { currentTokens with
              access_token := data.access_token
              refresh_token := data.refresh_token
              expires_at := expiresAt }
        ⟨.ok updatedTokens, 1, [updatedTokens]⟩

/-- `TokenError.code` values raised by `getValidToken`. -/
inductive TokenErrorCode where
  | NOT_AUTHORIZED
  | REFRESH_TOKEN_EXPIRED
  | TOKEN_REFRESH_FAILED
deriving Repr, DecidableEq

/-- Result of `getValidToken` together with its observable effects. -/
structure GetValidTokenResult where
  result : Except TokenErrorCode EtsyTokens
  refreshEndpointCalls : Nat
  tokenWrites : List EtsyTokens

/-- `getValidToken` (`lib/etsy/client.ts`): read the stored record; fail
`NOT_AUTHORIZED` if absent; return it unchanged while `isTokenExpired` is
false; otherwise call `refreshAccessToken`, translating its failures into
`TokenError` codes. -/
def getValidToken (stored : Option EtsyTokens) (now : Int) (apiKeySet : Bool)
    (refreshResponse : HttpOutcome EtsyRefreshTokenResponse) (refreshNow : Int) :
    GetValidTokenResult :=
  match stored with
  | none => ⟨.error .NOT_AUTHORIZED, 0, []⟩
  | some tokens =>
      if !(isTokenExpired now tokens) then ⟨.ok tokens, 0, []⟩
      else
        let r := refreshAccessToken apiKeySet tokens refreshResponse refreshNow
        match r.result with
        | .ok refreshed => ⟨.ok refreshed, r.endpointCalls, r.tokenWrites⟩
        | .error .REFRESH_TOKEN_EXPIRED =>
            ⟨.error .REFRESH_TOKEN_EXPIRED, r.endpointCalls, r.tokenWrites⟩
        | .error _ => ⟨.error .TOKEN_REFRESH_FAILED, r.endpointCalls, r.tokenWrites⟩

/-- `RETRY_CONFIG.BASE_DELAY_MS` (`lib/etsy/client.ts`). -/
def BASE_DELAY_MS : ℚ := 1000

/-- `RETRY_CONFIG.MAX_DELAY_MS` (`lib/etsy/client.ts`). -/
def MAX_DELAY_MS : ℚ := 30000

/-- `RETRY_CONFIG.JITTER_FACTOR` (`lib/etsy/client.ts`). -/
def JITTER_FACTOR : ℚ := 3 / 10

/-- `RETRY_CONFIG.MAX_RETRIES` (`lib/etsy/client.ts`). -/
def MAX_RETRIES : Nat := 3

/-- `calculateBackoffDelay` (`lib/etsy/client.ts`):
`min(BASE_DELAY_MS * 2^attempt + jitter, MAX_DELAY_MS)` where
`jitter = Math.random() * JITTER_FACTOR * exponentialDelay`. The value of
`Math.random()` is the explicit parameter `rand` (in `[0, 1)`). -/
def calculateBackoffDelay (attempt : Nat) (rand : ℚ) : ℚ :=
  let exponentialDelay := BASE_DELAY_MS * 2 ^ attempt
  let jitter := rand * JITTER_FACTOR * exponentialDelay
  min (exponentialDelay + jitter) MAX_DELAY_MS

/-- Concrete token record used to evaluate theorems on inputs. -/
def sampleTokens : EtsyTokens :=
  { access_token := "1234.abc"
    refresh_token := "1234.ref"
    expires_at := 1000000
    user_id := "1234"
    shop_id := some "567" }

/-- Token record at the refresh boundary: `expires_at − now = EXPIRY_BUFFER`
at `now = 0`, so `getValidToken` refreshes it. -/
def boundaryTokens : EtsyTokens :=
  { access_token := "1234.old"
    refresh_token := "1234.ref"
    expires_at := 300000
    user_id := "1234"
    shop_id := none }

/-- A refresh response whose `expires_in` is zero seconds. -/
def zeroLifeResponse : EtsyRefreshTokenResponse :=
  { access_token := "1234.new"
    token_type := "Bearer"
    expires_in := 0
    refresh_token := "1234.ref2" }

/-- JS `String.prototype.toLowerCase()` as used by `getShopByName`:
lowercases every character. -/
def toLowerCase (s : String) : String := ⟨s.data.map Char.toLower⟩

/-- Whitespace stripped by JS `String.prototype.trim()` (the characters
relevant to shop names). -/
def isJsWhitespace (c : Char) : Bool :=
  c == ' ' || c == '\t' || c == '\n' || c == '\r'

/-- JS `String.prototype.trim()`: strip leading and trailing whitespace. -/
def jsTrim (s : String) : String :=
  ⟨((s.data.dropWhile isJsWhitespace).reverse.dropWhile isJsWhitespace).reverse⟩

/-- The fields of an Etsy shop involved in name lookup (`EtsyShop` in
`lib/etsy/types.ts`, restricted to the fields `getShopByName` reads). -/
structure EtsyShop where
  shop_id : Nat
  shop_name : String
deriving Repr, DecidableEq

/-- `EtsyApiError.code` values raised by `getShopByName`; `NO_EXACT_MATCH`
carries the `shop_name`s of the near-matches the search returned. -/
inductive ShopLookupError where
  | INVALID_SHOP_NAME
  | NO_SHOPS_FOUND
  | NO_EXACT_MATCH (foundNames : List String)
deriving Repr, DecidableEq

/-- `EtsyClient.getShopByName` (`lib/etsy/client.ts`), with the search
endpoint's candidate list as an explicit parameter: validate the name
(trim; empty is invalid), fail `NO_SHOPS_FOUND` on an empty candidate list,
otherwise return the first candidate whose lowercased `shop_name` equals the
lowercased requested name, or fail `NO_EXACT_MATCH` listing every
candidate's name. -/
def getShopByName (shopName : String) (results : List EtsyShop) :
    Except ShopLookupError EtsyShop :=
  if jsTrim shopName = "" then .error .INVALID_SHOP_NAME
  else if results.isEmpty then .error .NO_SHOPS_FOUND
  else
    match results.find? (fun s => toLowerCase s.shop_name == toLowerCase shopName) with
    | some shop => .ok shop
    | none => .error (.NO_EXACT_MATCH (results.map (fun s => s.shop_name)))

/-- `DEFAULT_LIMIT` (`lib/etsy/client.ts`): page size for listings. -/
def DEFAULT_LIMIT : Nat := 100

/-- One page of the paginated listings endpoint (`EtsyListingsResponse`):
the server-reported total `count` and this page's `results`. -/
structure ListingsPage (α : Type) where
  count : Nat
  results : List α

/-- The pagination loop of `EtsyClient.getShopListings`
(`lib/etsy/client.ts`), with the server as a function from offset to page
and explicit fuel (the source loop has no fuel; `none` means the loop would
still be running after `fuel` requests). Returns the concatenated results
and the list of offsets requested, in order. After each page the loop stops
if the page was short (`results.length < DEFAULT_LIMIT`); otherwise it
advances `offset` by `DEFAULT_LIMIT` and also stops if the new offset has
reached the reported `count`. -/
def getShopListingsGo {α : Type} (server : Nat → ListingsPage α) :
    Nat → Nat → List α → List Nat → Option (List α × List Nat)
  | 0, _, _, _ => none
  | fuel + 1, offset, acc, offsets =>
      let response := server offset
      let acc2 := acc ++ response.results
      let offsets2 := offsets ++ [offset]
      if response.results.length < DEFAULT_LIMIT then some (acc2, offsets2)
      else if response.count ≤ offset + DEFAULT_LIMIT then some (acc2, offsets2)
      else getShopListingsGo server fuel (offset + DEFAULT_LIMIT) acc2 offsets2

/-- `EtsyClient.getShopListings`: run the pagination loop from offset 0. -/
def getShopListings {α : Type} (server : Nat → ListingsPage α) (fuel : Nat) :
    Option (List α × List Nat) :=
  getShopListingsGo server fuel 0 [] []

/-- A server holding 250 listings (numbered 0..249) that reports
`count = 250` and serves pages of up to 100 from the requested offset. -/
def server250 (offset : Nat) : ListingsPage Nat :=
  ⟨250, ((List.range 250).drop offset).take 100⟩

/-- `RATE_LIMIT.QPS` (`lib/etsy/client.ts`): maximum requests per second. -/
def QPS_LIMIT : Nat := 5

/-- `RATE_LIMIT.QPD` (`lib/etsy/client.ts`): maximum requests per day. -/
def QPD_LIMIT : Nat := 5000

/-- `RATE_LIMIT.SECOND_WINDOW_MS` (`lib/etsy/client.ts`). -/
def SECOND_WINDOW_MS : Int := 1000

/-- `RATE_LIMIT.BUFFER_MS` (`lib/etsy/client.ts`). -/
def BUFFER_MS : Int := 10

/-- Rate limiter state (`RateLimitState` in `lib/etsy/types.ts`).
`daily_reset` is stored as an ISO string in the source and embedded as the
epoch-millisecond value `new Date(state.daily_reset)` recovers. -/
structure RateLimitState where
  daily_count : Nat
  daily_reset : Int
  second_timestamps : List Int
deriving Repr, DecidableEq

/-- `cleanupTimestamps` (`lib/etsy/client.ts`): keep only the timestamps
with `now - ts < SECOND_WINDOW_MS`, `now` being the `Date.now()` sample the
function takes. -/
def cleanupTimestamps (now : Int) (timestamps : List Int) : List Int :=
  timestamps.filter (fun ts => decide (now - ts < SECOND_WINDOW_MS))

/-- `getOrCreateRateLimitState` (`lib/etsy/client.ts`): read the stored
state; if absent, create `{daily_count: 0, daily_reset: nextMidnightUTC,
second_timestamps: []}` and persist it; if present and `now ≥ daily_reset`,
reset it the same way and persist. `nextMidnightUTC` is the next UTC
midnight, which the source computes from the current date with
`Date.UTC(..., getUTCDate() + 1, 0, 0, 0)`. Returns the state together with
the list of durable writes performed. -/
def getOrCreateRateLimitState (stored : Option RateLimitState)
    (now nextMidnightUTC : Int) : RateLimitState × List RateLimitState :=
  match stored with
  | none =>
      let state : RateLimitState := ⟨0, nextMidnightUTC, []⟩
      (state, [state])
  | some state =>
      if state.daily_reset ≤ now then
        let reset : RateLimitState := ⟨0, nextMidnightUTC, []⟩
        (reset, [reset])
      else
        (state, [])

/-- The successive `Date.now()` samples one `waitForRateLimit` invocation
takes: at the daily-reset check (`tState`), at the hours-until-reset
computation (`tHours`), inside `cleanupTimestamps` (`tClean`), at the
wait-time computation (`tWait`), for the appended timestamp after the
optional delay (`tAppend`), and inside the final `cleanupTimestamps`
(`tClean2`). -/
structure Clock where
  tState : Int
  tHours : Int
  tClean : Int
  tWait : Int
  tAppend : Int
  tClean2 : Int
deriving Repr, DecidableEq

/-- Real time never runs backwards between the successive samples. -/
def Clock.Mono (c : Clock) : Prop :=
  c.tState ≤ c.tHours ∧ c.tHours ≤ c.tClean ∧ c.tClean ≤ c.tWait
    ∧ c.tWait ≤ c.tAppend ∧ c.tAppend ≤ c.tClean2

/-- JS `Math.ceil(a / b)` on integer millisecond quantities (with `b > 0`),
via floor division. -/
def ceilDivInt (a b : Int) : Int := -(-a / b)

/-- The delay `waitForRateLimit` requests between the wait-time computation
and the appended timestamp: when the pruned window has reached `QPS_LIMIT`,
`waitTime = SECOND_WINDOW_MS - (Date.now() - oldest)`, and the code sleeps
`waitTime + BUFFER_MS` if `waitTime > 0`; otherwise it does not sleep. -/
def requestedWait (timestamps : List Int) (tClean tWait : Int) : Int :=
  if QPS_LIMIT ≤ (cleanupTimestamps tClean timestamps).length then
    match (cleanupTimestamps tClean timestamps).min? with
    | some oldest =>
        if 0 < SECOND_WINDOW_MS - (tWait - oldest)
        then SECOND_WINDOW_MS - (tWait - oldest) + BUFFER_MS
        else 0
    | none => 0
  else 0

/-- Outcome of one `waitForRateLimit` invocation: admission (with the state
persisted at the end), or the thrown `RateLimitError` carrying the
`Math.ceil`-ed hours until the daily reset. -/
inductive RateLimitOutcome where
  | admitted (finalState : RateLimitState)
  | dailyQuotaExceeded (hoursUntilReset : Int)
deriving Repr, DecidableEq

/-- `waitForRateLimit` (`lib/etsy/client.ts`): load-or-create the state
(resetting past the daily boundary); throw if `daily_count ≥ QPD_LIMIT`;
prune the window, wait out the oldest timestamp if the window is full (the
sleep is captured by the `ClockOK` hypothesis on the clock samples), then
append the current timestamp, re-prune, increment `daily_count` and persist.
Returns the outcome and the durable writes performed, each paired with the
time it was issued. -/
def waitForRateLimit (stored : Option RateLimitState) (nextMidnightUTC : Int)
    (c : Clock) : RateLimitOutcome × List (RateLimitState × Int) :=
  let init := getOrCreateRateLimitState stored c.tState nextMidnightUTC
  let state := init.1
  let writes0 := init.2.map (fun s => (s, c.tState))
  if QPD_LIMIT ≤ state.daily_count then
    (.dailyQuotaExceeded (ceilDivInt (state.daily_reset - c.tHours) 3600000),
     writes0)
  else
    let newTimestamps :=
      cleanupTimestamps c.tClean2 (state.second_timestamps ++ [c.tAppend])
    let final : RateLimitState :=
      { state with
          daily_count := state.daily_count + 1
          second_timestamps := newTimestamps }
    (.admitted final, writes0 ++ [(final, c.tClean2)])

/-- A clock is valid for an invocation when its samples are monotone and the
gap between the wait-time sample and the appended timestamp is at least the
delay the code requests (`setTimeout` never fires early). -/
def ClockOK (stored : Option RateLimitState) (nextMidnightUTC : Int)
    (c : Clock) : Prop :=
  c.Mono ∧
    c.tWait + requestedWait
        (getOrCreateRateLimitState stored c.tState nextMidnightUTC).1.second_timestamps
        c.tClean c.tWait
      ≤ c.tAppend

/-- The stored state after an invocation: the last durable write if any,
otherwise unchanged. -/
def nextStored (stored : Option RateLimitState) (nextMidnightUTC : Int)
    (c : Clock) : Option RateLimitState :=
  match (waitForRateLimit stored nextMidnightUTC c).2.getLast? with
  | some p => some p.1
  | none => stored

/-- All durable writes (with their issue times) of a sequence of sequential
`waitForRateLimit` invocations, each described by its `nextMidnightUTC`
input and clock samples. -/
def seqWrites : Option RateLimitState → List (Int × Clock) →
    List (RateLimitState × Int)
  | _, [] => []
  | stored, (nm, c) :: rest =>
      (waitForRateLimit stored nm c).2 ++ seqWrites (nextStored stored nm c) rest

/-- The calls are sequential: each clock is valid for the state it actually
sees, and each invocation finishes before the next one starts. -/
def SeqOK : Option RateLimitState → List (Int × Clock) → Prop
  | _, [] => True
  | stored, (nm, c) :: rest =>
      ClockOK stored nm c
        ∧ (∀ q, rest.head? = some q → c.tClean2 ≤ q.2.tState)
        ∧ SeqOK (nextStored stored nm c) rest

/-- The pruned window an invocation sees at admission time. -/
def callPrunedWindow (stored : Option RateLimitState) (nextMidnightUTC : Int)
    (c : Clock) : List Int :=
  cleanupTimestamps c.tClean
    (getOrCreateRateLimitState stored c.tState nextMidnightUTC).1.second_timestamps

/-- When the pruned window is already at `QPS_LIMIT` at admission time, the
new timestamp is appended only after the window's oldest timestamp has left
the trailing 1-second window. -/
def DelayedPastOldest (stored : Option RateLimitState) (nextMidnightUTC : Int)
    (c : Clock) : Prop :=
  QPS_LIMIT ≤ (callPrunedWindow stored nextMidnightUTC c).length →
    ∀ oldest, (callPrunedWindow stored nextMidnightUTC c).min? = some oldest →
      oldest + SECOND_WINDOW_MS ≤ c.tAppend

/-- Every invocation of the sequence appends only after the oldest
timestamp of a full window has expired. -/
def AllDelayed : Option RateLimitState → List (Int × Clock) → Prop
  | _, [] => True
  | stored, (nm, c) :: rest =>
      DelayedPastOldest stored nm c ∧ AllDelayed (nextStored stored nm c) rest

/-- A state's timestamp list, pruned to the trailing 1-second window at time
`t`, holds at most `QPS_LIMIT` entries. -/
def WindowBounded (t : Int) (s : RateLimitState) : Prop :=
  (cleanupTimestamps t s.second_timestamps).length ≤ QPS_LIMIT

/-- `isRetryableError` (`lib/etsy/client.ts`): retry on 429 and 5xx. -/
def isRetryableError (status : Nat) : Bool :=
  status == 429 || (decide (500 ≤ status) && decide (status < 600))

/-- Outcome of one HTTP attempt inside `makeRequest`: an ok response whose
body parses, a non-ok status, or a network-level failure. -/
inductive AttemptOutcome where
  | success
  | httpError (status : Nat)
  | networkError
deriving Repr, DecidableEq

/-- The errors `makeRequest` can raise: a propagated `TokenError`, a
`RateLimitError` (daily quota or 429 after retries), the `API_AUTH_FAILED`
`TokenError` on 401/403, an `EtsyApiError` for a non-retryable status, or
`MAX_RETRIES_EXCEEDED` when the attempt budget is exhausted. -/
inductive MakeRequestError where
  | tokenError (code : TokenErrorCode)
  | rateLimitError
  | apiAuthFailed (status : Nat)
  | apiError (status : Nat)
  | maxRetriesExceeded
deriving Repr, DecidableEq

/-- The retry loop of `EtsyClient.makeRequest` (`lib/etsy/client.ts`),
with attempt outcomes as an explicit function of the attempt number.
Per attempt: success returns; a retryable status (429/5xx) with attempts
remaining sleeps (`calculateBackoffDelay`) and retries; 429 with no attempt
left raises `RateLimitError`; 401/403 raise the auth failure; a 5xx with no
attempt left is thrown as a retryable `EtsyApiError`, caught, not re-thrown,
and the loop then falls through to `MAX_RETRIES_EXCEEDED`; other statuses
raise `EtsyApiError(status)`; network errors retry while attempts remain and
otherwise exhaust the budget. Returns the result and the list of attempt
numbers tried, in order. -/
def makeRequestLoop (attemptResult : Nat → AttemptOutcome) :
    Nat → Nat → Except MakeRequestError Unit × List Nat
  | 0, _ => (.error .maxRetriesExceeded, [])
  | fuel + 1, attempt =>
      match attemptResult attempt with
      | .success => (.ok (), [attempt])
      | .httpError status =>
          if isRetryableError status && decide (attempt < MAX_RETRIES) then
            let r := makeRequestLoop attemptResult fuel (attempt + 1)
            (r.1, attempt :: r.2)
          else if status == 429 then (.error .rateLimitError, [attempt])
          else if status == 401 || status == 403 then
            (.error (.apiAuthFailed status), [attempt])
          else if isRetryableError status then
            (.error .maxRetriesExceeded, [attempt])
          else (.error (.apiError status), [attempt])
      | .networkError =>
          if decide (attempt < MAX_RETRIES) then
            let r := makeRequestLoop attemptResult fuel (attempt + 1)
            (r.1, attempt :: r.2)
          else (.error .maxRetriesExceeded, [attempt])

/-- Observable events of one `makeRequest` call, in order. -/
inductive ClientEvent where
  | admission
  | httpAttempt (attempt : Nat)
deriving Repr, DecidableEq

/-- Result and observable effects of one `EtsyClient.makeRequest` call. -/
structure MakeRequestRun where
  result : Except MakeRequestError Unit
  events : List ClientEvent
  attemptsMade : List Nat
  rlWrites : List (RateLimitState × Int)

/-- `EtsyClient.makeRequest` (`lib/etsy/client.ts`): acquire a valid token,
call `waitForRateLimit` once, then run the attempt/retry loop (at most
`MAX_RETRIES + 1` attempts). The rate limiter is not consulted again on
retries. -/
def makeRequest (storedTokens : Option EtsyTokens) (tokenNow : Int)
    (apiKeySet : Bool) (refreshResponse : HttpOutcome EtsyRefreshTokenResponse)
    (refreshNow : Int) (rlStored : Option RateLimitState)
    (nextMidnightUTC : Int) (c : Clock)
    (attemptResult : Nat → AttemptOutcome) : MakeRequestRun :=
  match (getValidToken storedTokens tokenNow apiKeySet refreshResponse
      refreshNow).result with
  | .error e => ⟨.error (.tokenError e), [], [], []⟩
  | .ok _ =>
      let rl := waitForRateLimit rlStored nextMidnightUTC c
      match rl.1 with
      | .dailyQuotaExceeded _ => ⟨.error .rateLimitError, [.admission], [], rl.2⟩
      | .admitted _ =>
          let r := makeRequestLoop attemptResult (MAX_RETRIES + 1) 0
          ⟨r.1, .admission :: r.2.map .httpAttempt, r.2, rl.2⟩

/-- `OAUTH_STATE_MAX_AGE_MS` (`app/api/auth/etsy/callback/route.ts`):
10 minutes. -/
def OAUTH_STATE_MAX_AGE_MS : Int := 10 * 60 * 1000

/-- OAuth handshake state stored under `oauth_state_<state>`
(`OAuthStateData` in `lib/etsy/oauth.ts`). `created_at` is stored as an ISO
string and embedded as its epoch-millisecond value. -/
structure OAuthStateData where
  code_verifier : String
  created_at : Int
deriving Repr, DecidableEq

/-- `OAuthError`/`ConfigError` codes the callback route can produce. -/
inductive CallbackErrorCode where
  | ETSY_OAUTH_ERROR
  | MISSING_CODE
  | MISSING_STATE
  | STATE_MISMATCH
  | STATE_EXPIRED
  | CONFIG_ERROR
  | TOKEN_EXCHANGE_ERROR
  | CODE_EXPIRED
  | INVALID_TOKEN_RESPONSE
  | INVALID_TOKEN_FORMAT
deriving Repr, DecidableEq

/-- Body of a successful response from the OAuth code-exchange endpoint
(`EtsyTokenResponse` in the callback route). -/
structure EtsyTokenResponse where
  access_token : String
  token_type : String
  expires_in : Int
  refresh_token : String
deriving Repr, DecidableEq

/-- `extractUserId` (callback route): Etsy access tokens have the shape
`"<user_id>.<opaque>"`; split on `.`, fail `INVALID_TOKEN_FORMAT` when
there is no delimiter, otherwise return the first segment. -/
def extractUserId (accessToken : String) : Except CallbackErrorCode String :=
  let parts := accessToken.data.splitOn '.'
  if parts.length < 2 then .error .INVALID_TOKEN_FORMAT
  else .ok ⟨parts.headD []⟩

/-- Result and observable effects of one OAuth callback invocation:
the redirect issued (success, or an error code), how many times
`deleteOAuthState` was invoked, and the token records written. -/
structure CallbackRun where
  redirect : Except CallbackErrorCode Unit
  deleteCalls : Nat
  tokenWrites : List EtsyTokens

/-- The `GET` OAuth callback handler (`app/api/auth/etsy/callback/route.ts`),
with the request's query parameters, the stored handshake entry for the
given state, the clock, the configuration flags and the code-exchange
outcome as explicit parameters. `deleteOAuthState` itself swallows storage
failures, so delete outcomes do not influence control flow; the model
counts its invocations. On any thrown error the catch block issues a
best-effort delete whenever the `state` query parameter is present, then
redirects with the error code. -/
def oauthCallback (code state error : Option String)
    (storedState : Option OAuthStateData) (now : Int)
    (clientIdSet redirectUriSet : Bool)
    (exchangeResult : Except CallbackErrorCode EtsyTokenResponse)
    (exchangeNow : Int) : CallbackRun :=
  let catchDeletes : Nat := if state.isSome then 1 else 0
  match error with
  | some _ => ⟨.error .ETSY_OAUTH_ERROR, catchDeletes, []⟩
  | none =>
  match code with
  | none => ⟨.error .MISSING_CODE, catchDeletes, []⟩
  | some _ =>
  match state with
  | none => ⟨.error .MISSING_STATE, catchDeletes, []⟩
  | some _ =>
  match storedState with
  | none => ⟨.error .STATE_MISMATCH, catchDeletes, []⟩
  | some stored =>
      if OAUTH_STATE_MAX_AGE_MS < now - stored.created_at then
        -- delete once in the expiry branch, once more in the catch block
        ⟨.error .STATE_EXPIRED, 1 + catchDeletes, []⟩
      else if !clientIdSet then ⟨.error .CONFIG_ERROR, catchDeletes, []⟩
      else if !redirectUriSet then ⟨.error .CONFIG_ERROR, catchDeletes, []⟩
      else
        match exchangeResult with
        | .error e => ⟨.error e, catchDeletes, []⟩
        | .ok tokenResponse =>
            match extractUserId tokenResponse.access_token with
            | .error e => ⟨.error e, catchDeletes, []⟩
            | .ok userId =>
                let tokens : EtsyTokens :=
                  { access_token := tokenResponse.access_token
                    refresh_token := tokenResponse.refresh_token
                    expires_at := exchangeNow + tokenResponse.expires_in * 1000
                    user_id := userId
                    shop_id := none }
                -- success: store tokens, then the one cleanup delete
                ⟨.ok (), 1, [tokens]⟩

/- ===================== Theorems ===================== -/

/-- **C9.** On every successful refresh, `refreshAccessToken` performs a
single durable write of one record that replaces exactly `access_token`,
`refresh_token` and `expires_at` together and leaves `user_id` and
`shop_id` unchanged, and returns that same record. -/
theorem refreshAccessToken_single_atomic_write
    (tokens : EtsyTokens) (data : EtsyRefreshTokenResponse) (now : Int) :
    ∃ updated,
      refreshAccessToken true tokens (.ok data) now = ⟨.ok updated, 1, [updated]⟩
        ∧ updated.access_token = data.access_token
        ∧ updated.refresh_token = data.refresh_token
        ∧ updated.expires_at = now + data.expires_in * 1000
        ∧ updated.user_id = tokens.user_id
        ∧ updated.shop_id = tokens.shop_id :=
  ⟨_, rfl, rfl, rfl, rfl, rfl, rfl⟩

/-- **C7.** For every shop name passing validation and every non-empty
candidate list: if some candidate's name equals the requested name
case-insensitively, `getShopByName` returns such a candidate (the first);
if no candidate matches, it fails with `NO_EXACT_MATCH` listing every
candidate's name; and on candidates `["Acme", "Acme Crafts"]` with input
`"Acme"` it returns the `"Acme"` shop. -/
theorem getShopByName_case_insensitive_match
    (shopName : String) (results : List EtsyShop)
    (hname : jsTrim shopName ≠ "")
    (hne : results ≠ []) :
    (∀ shop, shop ∈ results → toLowerCase shop.shop_name = toLowerCase shopName →
        ∃ s, getShopByName shopName results = .ok s
          ∧ s ∈ results ∧ toLowerCase s.shop_name = toLowerCase shopName)
      ∧ ((∀ shop ∈ results, toLowerCase shop.shop_name ≠ toLowerCase shopName) →
          getShopByName shopName results =
            .error (.NO_EXACT_MATCH (results.map (fun s => s.shop_name))))
      ∧ getShopByName "Acme" [⟨1, "Acme"⟩, ⟨2, "Acme Crafts"⟩] = .ok ⟨1, "Acme"⟩ := by
  have hempty : results.isEmpty = false := by
    cases results with
    | nil => exact absurd rfl hne
    | cons a l => rfl
  refine ⟨?_, ?_, by rfl⟩
  · intro shop hmem hmatch
    have hsome : (results.find?
        (fun s => toLowerCase s.shop_name == toLowerCase shopName)).isSome := by
      rw [List.find?_isSome]
      exact ⟨shop, hmem, by simpa using hmatch⟩
    obtain ⟨s, hs⟩ := Option.isSome_iff_exists.mp hsome
    refine ⟨s, ?_, List.mem_of_find?_eq_some hs, by simpa using List.find?_some hs⟩
    simp [getShopByName, hname, hempty, hs]
  · intro hnone
    have hfind : results.find?
        (fun s => toLowerCase s.shop_name == toLowerCase shopName) = none := by
      rw [List.find?_eq_none]
      intro s hs
      simpa using hnone s hs
    simp [getShopByName, hname, hempty, hfind]

/-- Witness for C7 at a concrete input: requesting `"ACME"` against
candidates `["Acme", "Acme Crafts"]` returns the `"Acme"` shop. -/
theorem getShopByName_case_insensitive_match_witness :
    ∃ s, getShopByName "ACME" [⟨1, "Acme"⟩, ⟨2, "Acme Crafts"⟩] = .ok s
      ∧ s ∈ [(⟨1, "Acme"⟩ : EtsyShop), ⟨2, "Acme Crafts"⟩]
      ∧ toLowerCase s.shop_name = toLowerCase "ACME" :=
  (getShopByName_case_insensitive_match "ACME" [⟨1, "Acme"⟩, ⟨2, "Acme Crafts"⟩]
      (by decide) (by decide)).1 ⟨1, "Acme"⟩ (by decide) (by decide)

set_option maxRecDepth 10000 in
/-- **C5.** Against a server reporting `count = 250` with page size 100,
`getShopListings` issues exactly 3 requests at offsets 0, 100 and 200 and
returns all 250 results concatenated in page order; and in general, after
any page the loop continues exactly when the page was full and the advanced
offset is still below the reported count, and terminates otherwise. -/
theorem getShopListings_pagination :
    getShopListings server250 10 = some (List.range 250, [0, 100, 200])
      ∧ (∀ (α : Type) (server : Nat → ListingsPage α) (fuel offset : Nat)
            (acc : List α) (offsets : List Nat),
          getShopListingsGo server (fuel + 1) offset acc offsets =
            if (server offset).results.length < DEFAULT_LIMIT
                ∨ (server offset).count ≤ offset + DEFAULT_LIMIT
            then some (acc ++ (server offset).results, offsets ++ [offset])
            else getShopListingsGo server fuel (offset + DEFAULT_LIMIT)
                   (acc ++ (server offset).results) (offsets ++ [offset])) := by
  constructor
  · decide
  · intro α server fuel offset acc offsets
    by_cases h1 : (server offset).results.length < DEFAULT_LIMIT
    · simp [getShopListingsGo, h1]
    · by_cases h2 : (server offset).count ≤ offset + DEFAULT_LIMIT
      · simp [getShopListingsGo, h1, h2]
      · simp [getShopListingsGo, h1, h2]

/-- **C3.** For every stored token record with
`expires_at − now > EXPIRY_BUFFER` (5 minutes), `getValidToken` returns that
record unchanged: no request reaches the upstream token endpoint and no
durable write occurs, whatever the refresh-path parameters would have been. -/
theorem getValidToken_fresh_token_no_refresh
    (tokens : EtsyTokens) (now : Int) (apiKeySet : Bool)
    (resp : HttpOutcome EtsyRefreshTokenResponse) (refreshNow : Int)
    (hfresh : TOKEN_EXPIRY_BUFFER_MS < tokens.expires_at - now) :
    getValidToken (some tokens) now apiKeySet resp refreshNow =
      ⟨.ok tokens, 0, []⟩ := by
  have hlt : ¬ (tokens.expires_at - TOKEN_EXPIRY_BUFFER_MS ≤ now) := by
    unfold TOKEN_EXPIRY_BUFFER_MS at hfresh ⊢
    omega
  simp [getValidToken, isTokenExpired, hlt]

/-- Witness for C3 at a concrete input: `sampleTokens` expires at 1000000 ms,
checked at `now = 0`, which is more than 5 minutes before expiry. -/
theorem getValidToken_fresh_token_no_refresh_witness :
    getValidToken (some sampleTokens) 0 true .networkError 0 =
      ⟨.ok sampleTokens, 0, []⟩ :=
  getValidToken_fresh_token_no_refresh sampleTokens 0 true .networkError 0
    (by unfold TOKEN_EXPIRY_BUFFER_MS sampleTokens; decide)

/-- **C4, counterexample.** The code computes the refreshed `expires_at` as
`Date.now() + expires_in * 1000` with `expires_in` taken from the response.
At the boundary record (`expires_at − now = EXPIRY_BUFFER`, so a refresh is
issued) and a response with `expires_in = 0`, the refresh succeeds after
exactly one endpoint call, yet the returned `expires_at` (0) is strictly
*earlier* than the old one (300000): the claim's "strictly later" clause
fails as stated. -/
theorem getValidToken_refresh_not_strictly_later :
    (getValidToken (some boundaryTokens) 0 true (.ok zeroLifeResponse) 0).refreshEndpointCalls = 1
      ∧ ∀ refreshed,
          (getValidToken (some boundaryTokens) 0 true (.ok zeroLifeResponse) 0).result
              = .ok refreshed →
            ¬ boundaryTokens.expires_at < refreshed.expires_at := by
  constructor
  · rfl
  · intro refreshed h
    have : refreshed = { boundaryTokens with
        access_token := "1234.new", refresh_token := "1234.ref2", expires_at := 0 } := by
      simpa [getValidToken, isTokenExpired, refreshAccessToken, boundaryTokens,
        zeroLifeResponse, TOKEN_EXPIRY_BUFFER_MS] using h.symm
    subst this
    decide

/-- **C4, amended.** For every stored token record with
`expires_at − now ≤ EXPIRY_BUFFER`, `getValidToken` issues exactly one
refresh call to the upstream token endpoint; on success the returned record's
`expires_at` equals the refresh-time clock plus `expires_in` seconds, which is
strictly later than the old `expires_at` whenever `expires_in * 1000`
exceeds `EXPIRY_BUFFER` (as with Etsy's standard 3600-second tokens). -/
theorem getValidToken_expiring_refreshes
    (tokens : EtsyTokens) (now refreshNow : Int)
    (data : EtsyRefreshTokenResponse)
    (hexp : tokens.expires_at - now ≤ TOKEN_EXPIRY_BUFFER_MS)
    (hord : now ≤ refreshNow)
    (hlife : TOKEN_EXPIRY_BUFFER_MS < data.expires_in * 1000) :
    ∃ refreshed,
      getValidToken (some tokens) now true (.ok data) refreshNow =
          ⟨.ok refreshed, 1, [refreshed]⟩
        ∧ tokens.expires_at < refreshed.expires_at := by
  have hle : tokens.expires_at - TOKEN_EXPIRY_BUFFER_MS ≤ now := by omega
  refine ⟨{ tokens with
      access_token := data.access_token
      refresh_token := data.refresh_token
      expires_at := refreshNow + data.expires_in * 1000 }, ?_, ?_⟩
  · simp [getValidToken, isTokenExpired, refreshAccessToken, hle]
  · simp only []
    omega

/-- Witness for the amended C4 at a concrete input: `boundaryTokens` at
`now = 0` with a 3600-second refresh response. -/
theorem getValidToken_expiring_refreshes_witness :
    ∃ refreshed,
      getValidToken (some boundaryTokens) 0 true
          (.ok { access_token := "1234.new", token_type := "Bearer",
                 expires_in := 3600, refresh_token := "1234.ref2" }) 0 =
          ⟨.ok refreshed, 1, [refreshed]⟩
        ∧ boundaryTokens.expires_at < refreshed.expires_at :=
  getValidToken_expiring_refreshes boundaryTokens 0 0 _
    (by unfold boundaryTokens TOKEN_EXPIRY_BUFFER_MS; decide)
    (by decide)
    (by unfold TOKEN_EXPIRY_BUFFER_MS; decide)

/-- **C6.** For attempts `a < b` and any jitter draws (each
`Math.random()` value in `[0, 1)`, so each jitter is at most 30% of the
exponential delay), the backoff delay for attempt `b` is at least the delay
for attempt `a`, and every computed delay is at most `MAX_DELAY_MS`. -/
theorem calculateBackoffDelay_monotone_bounded
    (a b : Nat) (ra rb : ℚ) (hab : a < b)
    (hra0 : 0 ≤ ra) (hra1 : ra < 1) (hrb0 : 0 ≤ rb) (hrb1 : rb < 1) :
    calculateBackoffDelay a ra ≤ calculateBackoffDelay b rb
      ∧ calculateBackoffDelay a ra ≤ MAX_DELAY_MS
      ∧ calculateBackoffDelay b rb ≤ MAX_DELAY_MS := by
  unfold calculateBackoffDelay BASE_DELAY_MS JITTER_FACTOR
  refine ⟨?_, min_le_right _ _, min_le_right _ _⟩
  have hEa : (0 : ℚ) < 1000 * 2 ^ a := by positivity
  have hpow : (1000 : ℚ) * (2 ^ a * 2) ≤ 1000 * 2 ^ b := by
    have h2b : (2 : ℚ) ^ (a + 1) ≤ 2 ^ b := pow_le_pow_right₀ (by norm_num) hab
    rw [pow_succ] at h2b
    nlinarith [h2b]
  have hja : ra * (3 / 10) * (1000 * 2 ^ a) ≤ (3 / 10) * (1000 * 2 ^ a) := by
    nlinarith [hEa, hra1]
  have hjb : (0 : ℚ) ≤ rb * (3 / 10) * (1000 * 2 ^ b) := by positivity
  have h2 : (1000 : ℚ) * 2 ^ a + 3 / 10 * (1000 * 2 ^ a) ≤ 1000 * (2 ^ a * 2) := by
    nlinarith [hEa]
  have hkey : 1000 * 2 ^ a + ra * (3 / 10) * (1000 * 2 ^ a)
      ≤ 1000 * 2 ^ b + rb * (3 / 10) * (1000 * 2 ^ b) := by linarith
  exact min_le_min hkey le_rfl

/-- Witness for C6 at concrete inputs: attempts 0 and 1 with jitter draws
1/2 and 0. -/
theorem calculateBackoffDelay_monotone_bounded_witness :
    calculateBackoffDelay 0 (1 / 2) ≤ calculateBackoffDelay 1 0
      ∧ calculateBackoffDelay 0 (1 / 2) ≤ MAX_DELAY_MS
      ∧ calculateBackoffDelay 1 0 ≤ MAX_DELAY_MS :=
  calculateBackoffDelay_monotone_bounded 0 1 (1 / 2) 0 (by decide)
    (by norm_num) (by norm_num) (by norm_num) (by norm_num)

/-- Pruning at a later time keeps a sublist of pruning at an earlier time. -/
theorem cleanupTimestamps_sublist_of_le (l : List Int) {t1 t2 : Int}
    (h : t1 ≤ t2) :
    (cleanupTimestamps t2 l).Sublist (cleanupTimestamps t1 l) :=
  List.monotone_filter_right l (fun ts hts => by
    simp only [decide_eq_true_eq] at hts ⊢
    omega)

/-- Pruning at a later time yields at most as many timestamps. -/
theorem cleanupTimestamps_length_mono (l : List Int) {t1 t2 : Int}
    (h : t1 ≤ t2) :
    (cleanupTimestamps t2 l).length ≤ (cleanupTimestamps t1 l).length :=
  (cleanupTimestamps_sublist_of_le l h).length_le

/-- Pruning twice at the same time is pruning once. -/
theorem cleanupTimestamps_idem (t : Int) (l : List Int) :
    cleanupTimestamps t (cleanupTimestamps t l) = cleanupTimestamps t l := by
  simp [cleanupTimestamps, List.filter_filter]

/-- A window already bounded stays bounded at any later time. -/
theorem windowBounded_mono {s : RateLimitState} {t1 t2 : Int} (h : t1 ≤ t2)
    (hb : WindowBounded t1 s) : WindowBounded t2 s :=
  le_trans (cleanupTimestamps_length_mono _ h) hb

/-- The requested delay is never negative. -/
theorem requestedWait_nonneg (timestamps : List Int) (tClean tWait : Int) :
    0 ≤ requestedWait timestamps tClean tWait := by
  unfold requestedWait
  split
  · split
    · split
      · unfold BUFFER_MS; omega
      · exact le_refl 0
    · exact le_refl 0
  · exact le_refl 0

/-- The sleep request of a full window, spelled out. -/
theorem requestedWait_of_full {timestamps : List Int} {tClean tWait : Int}
    {oldest : Int}
    (hfull : QPS_LIMIT ≤ (cleanupTimestamps tClean timestamps).length)
    (hmin : (cleanupTimestamps tClean timestamps).min? = some oldest) :
    requestedWait timestamps tClean tWait
      = (if 0 < SECOND_WINDOW_MS - (tWait - oldest)
         then SECOND_WINDOW_MS - (tWait - oldest) + BUFFER_MS else 0) := by
  unfold requestedWait
  simp only [hfull, if_true, hmin]

/-- `List.min?` of an integer list returns a member that bounds every
member from below. -/
theorem min?_spec {l : List Int} {m : Int} (h : l.min? = some m) :
    m ∈ l ∧ ∀ b ∈ l, m ≤ b := by
  have anti : Std.Antisymm fun x1 x2 : Int => x1 ≤ x2 :=
    ⟨@fun a b h h' => le_antisymm h h'⟩
  rw [@List.min?_eq_some_iff Int m _ _ anti (fun a => le_refl a)
    (fun a b => min_choice a b) (fun a b c => le_min_iff)] at h
  exact h

/-- A nonempty integer list has a minimum. -/
theorem min?_isSome_of_ne_nil {l : List Int} (h : l ≠ []) :
    ∃ m, l.min? = some m := by
  cases l with
  | nil => exact absurd rfl h
  | cons a as => exact ⟨_, rfl⟩

/-- Core window bound: if the incoming timestamps prune to at most
`QPS_LIMIT` entries at admission time, and the clock respects the requested
delay, then appending the post-delay timestamp and re-pruning still yields
at most `QPS_LIMIT` entries. -/
theorem cleanup_append_bound (old : List Int)
    (tClean tWait tAppend tClean2 : Int)
    (hCW : tClean ≤ tWait)
    (hWA : tWait + requestedWait old tClean tWait ≤ tAppend)
    (hAC : tAppend ≤ tClean2)
    (hgood : (cleanupTimestamps tClean old).length ≤ QPS_LIMIT) :
    (cleanupTimestamps tClean2 (old ++ [tAppend])).length ≤ QPS_LIMIT := by
  have hWA' : tWait ≤ tAppend := by
    have := requestedWait_nonneg old tClean tWait
    omega
  have hCC2 : tClean ≤ tClean2 := le_trans hCW (le_trans hWA' hAC)
  have hsplit : (cleanupTimestamps tClean2 (old ++ [tAppend])).length
      ≤ (cleanupTimestamps tClean2 old).length + 1 := by
    rw [show cleanupTimestamps tClean2 (old ++ [tAppend])
        = cleanupTimestamps tClean2 old ++ cleanupTimestamps tClean2 [tAppend]
      from List.filter_append _ _]
    rw [List.length_append]
    have : (cleanupTimestamps tClean2 [tAppend]).length ≤ 1 :=
      List.length_filter_le _ _
    omega
  by_cases hfull : QPS_LIMIT ≤ (cleanupTimestamps tClean old).length
  · -- window full at admission: the delay pushes `tAppend` past the oldest
    have hne : cleanupTimestamps tClean old ≠ [] := by
      intro hnil
      rw [hnil] at hfull
      simp [QPS_LIMIT] at hfull
    obtain ⟨oldest, hmin⟩ := min?_isSome_of_ne_nil hne
    obtain ⟨hmem, _⟩ := min?_spec hmin
    have hwaitEq : requestedWait old tClean tWait
        = (if 0 < SECOND_WINDOW_MS - (tWait - oldest)
           then SECOND_WINDOW_MS - (tWait - oldest) + BUFFER_MS else 0) := by
      unfold requestedWait
      simp only [hfull, if_true, hmin]
    have hpast : oldest + SECOND_WINDOW_MS ≤ tAppend := by
      rw [hwaitEq] at hWA
      by_cases hpos : 0 < SECOND_WINDOW_MS - (tWait - oldest)
      · rw [if_pos hpos] at hWA
        unfold BUFFER_MS at hWA
        omega
      · rw [if_neg hpos] at hWA
        omega
    have hnotmem : oldest ∉ cleanupTimestamps tClean2 old := by
      intro hmem2
      have := (List.mem_filter.mp hmem2).2
      simp only [decide_eq_true_eq] at this
      omega
    have hsub : (cleanupTimestamps tClean2 old).Sublist
        (cleanupTimestamps tClean old) :=
      cleanupTimestamps_sublist_of_le old hCC2
    have hlt : (cleanupTimestamps tClean2 old).length
        < (cleanupTimestamps tClean old).length := by
      rcases lt_or_eq_of_le hsub.length_le with h | h
      · exact h
      · exact absurd (hsub.eq_of_length h ▸ hmem) hnotmem
    unfold QPS_LIMIT at hgood ⊢
    omega
  · -- window not full: pruning later only shrinks it
    have := cleanupTimestamps_length_mono old hCC2
    unfold QPS_LIMIT at hfull ⊢
    omega

/-- The reset/fresh limiter state has an empty window, bounded at any
time. -/
theorem windowBounded_fresh (t nm : Int) :
    WindowBounded t (⟨0, nm, []⟩ : RateLimitState) := by
  simp [WindowBounded, cleanupTimestamps, QPS_LIMIT]

/-- `getOrCreateRateLimitState` either installs the fresh/reset state or
returns the stored state with no write. -/
theorem getOrCreate_cases (stored : Option RateLimitState) (now nm : Int) :
    getOrCreateRateLimitState stored now nm
        = ((⟨0, nm, []⟩ : RateLimitState), [(⟨0, nm, []⟩ : RateLimitState)])
      ∨ ∃ s, stored = some s
          ∧ getOrCreateRateLimitState stored now nm = (s, []) := by
  match stored with
  | none => exact .inl rfl
  | some s =>
      by_cases h : s.daily_reset ≤ now
      · left
        simp [getOrCreateRateLimitState, h]
      · right
        exact ⟨s, rfl, by simp [getOrCreateRateLimitState, h]⟩

/-- Every durable write one `waitForRateLimit` invocation performs is
window-bounded at its own write time, which is no later than the
invocation's final sample. -/
theorem waitForRateLimit_writes_bounded
    (stored : Option RateLimitState) (nm : Int) (c : Clock)
    (hok : ClockOK stored nm c)
    (hg : ∀ s, stored = some s → WindowBounded c.tClean s) :
    ∀ p ∈ (waitForRateLimit stored nm c).2,
      WindowBounded p.2 p.1 ∧ p.2 ≤ c.tClean2 := by
  obtain ⟨⟨h01, h12, h23, h34, h45⟩, hwait⟩ := hok
  have hSC2 : c.tState ≤ c.tClean2 := by omega
  rcases getOrCreate_cases stored c.tState nm with hcase | ⟨s, hseq, hcase⟩
  · -- fresh/reset state installed
    have hboundFinal : (cleanupTimestamps c.tClean2
        (([] : List Int) ++ [c.tAppend])).length ≤ QPS_LIMIT := by
      refine cleanup_append_bound [] c.tClean c.tWait c.tAppend c.tClean2 h23
        ?_ h45 (by simp [cleanupTimestamps, QPS_LIMIT])
      have : (getOrCreateRateLimitState stored c.tState nm).1.second_timestamps
          = [] := by rw [hcase]
      rw [this] at hwait
      exact hwait
    intro p hp
    simp only [waitForRateLimit, hcase] at hp
    simp only [QPD_LIMIT] at hp
    norm_num at hp
    rcases hp with hp | hp
    · rw [hp]
      exact ⟨windowBounded_fresh _ _, hSC2⟩
    · rw [hp]
      refine ⟨?_, le_refl _⟩
      unfold WindowBounded
      simp only []
      rw [cleanupTimestamps_idem]
      exact hboundFinal
  · -- stored state kept
    intro p hp
    simp only [waitForRateLimit, hcase] at hp
    by_cases hq : QPD_LIMIT ≤ s.daily_count
    · simp only [hq, if_true] at hp
      simp at hp
    · simp only [hq, if_false] at hp
      simp only [List.map_nil, List.nil_append, List.mem_singleton] at hp
      rw [hp]
      refine ⟨?_, le_refl _⟩
      unfold WindowBounded
      simp only []
      rw [cleanupTimestamps_idem]
      refine cleanup_append_bound s.second_timestamps c.tClean c.tWait
        c.tAppend c.tClean2 h23 ?_ h45 (hg s hseq)
      have : (getOrCreateRateLimitState stored c.tState nm).1.second_timestamps
          = s.second_timestamps := by rw [hcase]
      rw [this] at hwait
      exact hwait

/-- A valid clock delays a full window past its oldest timestamp. -/
theorem delayedPastOldest_of_clockOK
    (stored : Option RateLimitState) (nm : Int) (c : Clock)
    (hok : ClockOK stored nm c) : DelayedPastOldest stored nm c := by
  obtain ⟨⟨h01, h12, h23, h34, h45⟩, hwait⟩ := hok
  intro hfull oldest hmin
  unfold callPrunedWindow at hfull hmin
  have hwaitEq : requestedWait
      (getOrCreateRateLimitState stored c.tState nm).1.second_timestamps
      c.tClean c.tWait
      = (if 0 < SECOND_WINDOW_MS - (c.tWait - oldest)
         then SECOND_WINDOW_MS - (c.tWait - oldest) + BUFFER_MS else 0) := by
    unfold requestedWait
    simp only [hfull, if_true, hmin]
  rw [hwaitEq] at hwait
  by_cases hpos : 0 < SECOND_WINDOW_MS - (c.tWait - oldest)
  · rw [if_pos hpos] at hwait
    unfold BUFFER_MS at hwait
    omega
  · rw [if_neg hpos] at hwait
    omega

/-- Induction workhorse for sequences of sequential invocations: if the
state seen by the first call is window-bounded at its admission sample,
every write of the run is bounded at its write time and every call delays
full windows properly. -/
theorem seqRun_invariant (calls : List (Int × Clock)) :
    ∀ stored : Option RateLimitState, SeqOK stored calls →
      (∀ nm c rest, calls = (nm, c) :: rest →
        ∀ s, stored = some s → WindowBounded c.tClean s) →
      (∀ p ∈ seqWrites stored calls, WindowBounded p.2 p.1)
        ∧ AllDelayed stored calls := by
  induction calls with
  | nil =>
      intro stored _ _
      exact ⟨by simp [seqWrites], trivial⟩
  | cons hd rest ih =>
      obtain ⟨nm, c⟩ := hd
      intro stored hseq hg
      obtain ⟨hok, horder, hrest⟩ := hseq
      have hg1 : ∀ s, stored = some s → WindowBounded c.tClean s :=
        hg nm c rest rfl
      have hw := waitForRateLimit_writes_bounded stored nm c hok hg1
      have hCleanClean2 : c.tClean ≤ c.tClean2 := by
        obtain ⟨h01, h12, h23, h34, h45⟩ := hok.1
        omega
      have hnextGood : ∀ nm2 c2 rest2, rest = (nm2, c2) :: rest2 →
          ∀ s2, nextStored stored nm c = some s2 → WindowBounded c2.tClean s2 := by
        intro nm2 c2 rest2 hrestEq s2 hs2
        have hord : c.tClean2 ≤ c2.tState := by
          apply horder (nm2, c2)
          rw [hrestEq]
          rfl
        have hc2mono : c2.tState ≤ c2.tClean := by
          rw [hrestEq] at hrest
          obtain ⟨hok2, _, _⟩ := hrest
          obtain ⟨h01, h12, _, _, _⟩ := hok2.1
          omega
        have hC2 : c.tClean2 ≤ c2.tClean := le_trans hord hc2mono
        unfold nextStored at hs2
        cases hlast : (waitForRateLimit stored nm c).2.getLast? with
        | none =>
            rw [hlast] at hs2
            exact windowBounded_mono (le_trans hCleanClean2 hC2)
              (hg1 s2 hs2)
        | some p =>
            rw [hlast] at hs2
            have hpmem : p ∈ (waitForRateLimit stored nm c).2 :=
              List.mem_of_getLast?_eq_some hlast
            obtain ⟨hbp, hlep⟩ := hw p hpmem
            have : s2 = p.1 := by
              injection hs2 with h
              exact h.symm
            rw [this]
            exact windowBounded_mono (le_trans hlep hC2) hbp
      obtain ⟨A, B⟩ := ih (nextStored stored nm c) hrest hnextGood
      constructor
      · intro p hp
        simp only [seqWrites, List.mem_append] at hp
        rcases hp with hp | hp
        · exact (hw p hp).1
        · exact A p hp
      · exact ⟨delayedPastOldest_of_clockOK stored nm c hok, B⟩

/-- **C1.** For every sequence of sequential `waitForRateLimit` invocations
starting from an absent limiter state, every `second_timestamps` list
persisted by the sequence, pruned to the trailing 1000 ms window at the
moment of the write, holds at most `QPS_LIMIT` (5) timestamps; and whenever
the pruned window already holds `QPS_LIMIT` timestamps at admission time,
the caller is delayed so that the new timestamp is appended only after the
oldest timestamp has left the window. -/
theorem rateLimiter_qps_window_invariant (calls : List (Int × Clock))
    (hseq : SeqOK none calls) :
    (∀ p ∈ seqWrites none calls, WindowBounded p.2 p.1)
      ∧ AllDelayed none calls :=
  seqRun_invariant calls none hseq
    (fun _ _ _ _ s hs => Option.noConfusion hs)

/-- Witness for C1 at a concrete input: one invocation with all clock
samples at 0, starting with no stored state. -/
theorem rateLimiter_qps_window_invariant_witness :
    (∀ p ∈ seqWrites none [(86400000, ⟨0, 0, 0, 0, 0, 0⟩)],
        WindowBounded p.2 p.1)
      ∧ AllDelayed none [(86400000, ⟨0, 0, 0, 0, 0, 0⟩)] :=
  rateLimiter_qps_window_invariant [(86400000, ⟨0, 0, 0, 0, 0, 0⟩)] (by
    simp only [SeqOK]
    refine ⟨⟨?_, ?_⟩, ?_, trivial⟩
    · unfold Clock.Mono
      exact ⟨by decide, by decide, by decide, by decide, by decide⟩
    · decide
    · intro q hq
      simp at hq)

/-- **C2.** With a stored state whose `daily_count` has reached `QPD_LIMIT`
(5000) and the current time before `daily_reset`, `waitForRateLimit` fails
with the daily-quota error carrying the `Math.ceil`-ed hours until reset
and performs no durable write; and for any invocation whose first sample
has reached `daily_reset`, the state is reset (`daily_count` back to 0,
`daily_reset` advanced to the supplied next UTC midnight) and admission
succeeds again, persisting a state with `daily_count = 1`. -/
theorem dailyQuota_blocks_until_reset
    (s : RateLimitState) (nm : Int) (c : Clock)
    (hquota : QPD_LIMIT ≤ s.daily_count)
    (hbefore : c.tState < s.daily_reset) :
    waitForRateLimit (some s) nm c
        = (.dailyQuotaExceeded (ceilDivInt (s.daily_reset - c.tHours) 3600000),
           [])
      ∧ ∀ (nm2 : Int) (c2 : Clock), s.daily_reset ≤ c2.tState →
          ∃ final,
            waitForRateLimit (some s) nm2 c2
                = (.admitted final,
                   [((⟨0, nm2, []⟩ : RateLimitState), c2.tState),
                    (final, c2.tClean2)])
              ∧ final.daily_count = 1 ∧ final.daily_reset = nm2 := by
  constructor
  · have hnr : ¬ s.daily_reset ≤ c.tState := by omega
    simp [waitForRateLimit, getOrCreateRateLimitState, hnr, hquota]
  · intro nm2 c2 hreset
    refine ⟨⟨1, nm2, cleanupTimestamps c2.tClean2 ([] ++ [c2.tAppend])⟩, ?_, rfl, rfl⟩
    simp [waitForRateLimit, getOrCreateRateLimitState, hreset, QPD_LIMIT]

/-- Witness for C2 at a concrete input: a full daily counter at time 0 with
reset scheduled at 1000, then an invocation at time 1000. -/
theorem dailyQuota_blocks_until_reset_witness :
    waitForRateLimit (some ⟨5000, 1000, []⟩) 86400000 ⟨0, 0, 0, 0, 0, 0⟩
        = (.dailyQuotaExceeded
            (ceilDivInt ((1000 : Int) - 0) 3600000), [])
      ∧ ∃ final,
          waitForRateLimit (some ⟨5000, 1000, []⟩) 86400000
              ⟨1000, 1000, 1000, 1000, 1000, 1000⟩
              = (.admitted final,
                 [((⟨0, 86400000, []⟩ : RateLimitState), 1000),
                  (final, 1000)])
            ∧ final.daily_count = 1 ∧ final.daily_reset = 86400000 :=
  ⟨(dailyQuota_blocks_until_reset ⟨5000, 1000, []⟩ 86400000 ⟨0, 0, 0, 0, 0, 0⟩
      (by decide) (by decide)).1,
   (dailyQuota_blocks_until_reset ⟨5000, 1000, []⟩ 86400000 ⟨0, 0, 0, 0, 0, 0⟩
      (by decide) (by decide)).2 86400000
      ⟨1000, 1000, 1000, 1000, 1000, 1000⟩ (by decide)⟩

/-- **C8, counterexample.** On an expired callback (stored handshake age
over 10 minutes) the route calls `deleteOAuthState` in the expiry branch
*and again* in the catch block (the `state` query parameter is present), so
the delete is invoked twice, not exactly once as claimed. -/
theorem oauthCallback_expired_two_deletes :
    (oauthCallback (some "authcode") (some "st") none
        (some ⟨"ver", 0⟩) 600001 true true
        (.error .TOKEN_EXCHANGE_ERROR) 0).deleteCalls = 2
      ∧ ¬ (oauthCallback (some "authcode") (some "st") none
            (some ⟨"ver", 0⟩) 600001 true true
            (.error .TOKEN_EXCHANGE_ERROR) 0).deleteCalls = 1
      ∧ (oauthCallback (some "authcode") (some "st") none
            (some ⟨"ver", 0⟩) 600001 true true
            (.error .TOKEN_EXCHANGE_ERROR) 0).redirect
          = .error .STATE_EXPIRED :=
  ⟨rfl, by decide, rfl⟩

/-- **C8, amended.** For every OAuth callback whose stored handshake state
has age `now − created_at` greater than 10 minutes, the callback fails with
`STATE_EXPIRED`, writes no tokens, and `deleteOAuthState` is invoked twice
(once when expiry is detected, once best-effort in the error handler);
the deletes are not required to succeed, as `deleteOAuthState` swallows
storage failures. -/
theorem oauthCallback_stateExpired
    (codeVal stateVal : String) (stored : OAuthStateData) (now : Int)
    (clientIdSet redirectUriSet : Bool)
    (exchangeResult : Except CallbackErrorCode EtsyTokenResponse)
    (exchangeNow : Int)
    (hage : OAUTH_STATE_MAX_AGE_MS < now - stored.created_at) :
    oauthCallback (some codeVal) (some stateVal) none (some stored) now
        clientIdSet redirectUriSet exchangeResult exchangeNow
      = ⟨.error .STATE_EXPIRED, 2, []⟩ := by
  simp [oauthCallback, hage]

/-- Witness for the amended C8 at a concrete input: handshake created at
time 0, callback at 700000 ms (> 10 minutes). -/
theorem oauthCallback_stateExpired_witness :
    oauthCallback (some "authcode") (some "st") none (some ⟨"ver", 0⟩) 700000
        true true (.ok ⟨"99.tok", "Bearer", 3600, "99.ref"⟩) 700000
      = ⟨.error .STATE_EXPIRED, 2, []⟩ :=
  oauthCallback_stateExpired "authcode" "st" ⟨"ver", 0⟩ 700000 true true
    (.ok ⟨"99.tok", "Bearer", 3600, "99.ref"⟩) 700000
    (by unfold OAUTH_STATE_MAX_AGE_MS; decide)

/-- The retry loop tries consecutive attempt numbers starting at the one it
was entered with: at most `fuel` of them, and at least one when it has any
fuel. -/
theorem makeRequestLoop_attempts (attemptResult : Nat → AttemptOutcome) :
    ∀ (fuel attempt : Nat), ∃ k,
      (makeRequestLoop attemptResult fuel attempt).2 = List.range' attempt k
        ∧ k ≤ fuel ∧ (1 ≤ fuel → 1 ≤ k) := by
  intro fuel
  induction fuel with
  | zero =>
      intro attempt
      exact ⟨0, rfl, le_refl 0, fun h => absurd h (by omega)⟩
  | succ n ih =>
      intro attempt
      cases h : attemptResult attempt with
      | success =>
          refine ⟨1, ?_, by omega, fun _ => le_refl 1⟩
          simp [makeRequestLoop, h]
      | httpError status =>
          by_cases hr : (isRetryableError status
              && decide (attempt < MAX_RETRIES)) = true
          · obtain ⟨k, hk, hk2, _⟩ := ih (attempt + 1)
            refine ⟨k + 1, ?_, by omega, fun _ => by omega⟩
            simp [makeRequestLoop, h, hr, hk, List.range'_succ]
          · refine ⟨1, ?_, by omega, fun _ => le_refl 1⟩
            simp only [makeRequestLoop, h]
            rw [if_neg hr]
            split
            · rfl
            · split
              · rfl
              · split
                · rfl
                · rfl
      | networkError =>
          by_cases hr : (decide (attempt < MAX_RETRIES) : Bool) = true
          · obtain ⟨k, hk, hk2, _⟩ := ih (attempt + 1)
            refine ⟨k + 1, ?_, by omega, fun _ => by omega⟩
            simp [makeRequestLoop, h, hr, hk, List.range'_succ]
          · refine ⟨1, ?_, by omega, fun _ => le_refl 1⟩
            have hlt : ¬ attempt < MAX_RETRIES := by simpa using hr
            simp [makeRequestLoop, h, hlt]

/-- **C10.** When token acquisition succeeds and the daily quota is not
reached, a `makeRequest` call admits through the rate limiter exactly once,
as its first observable event before every HTTP attempt; the retried
attempts (at most `MAX_RETRIES + 1 = 4` in total, numbered consecutively
from 0) re-issue the HTTP call without a new admission, and the single
persisted rate-limiter write increments `daily_count` by exactly 1. -/
theorem makeRequest_single_admission
    (storedTokens : Option EtsyTokens) (tokenNow : Int) (apiKeySet : Bool)
    (refreshResponse : HttpOutcome EtsyRefreshTokenResponse) (refreshNow : Int)
    (s : RateLimitState) (nextMidnightUTC : Int) (c : Clock)
    (attemptResult : Nat → AttemptOutcome) (t : EtsyTokens)
    (htok : (getValidToken storedTokens tokenNow apiKeySet refreshResponse
        refreshNow).result = .ok t)
    (hquota : s.daily_count < QPD_LIMIT)
    (hbefore : c.tState < s.daily_reset) :
    ∃ final,
      makeRequest storedTokens tokenNow apiKeySet refreshResponse refreshNow
          (some s) nextMidnightUTC c attemptResult
        = ⟨(makeRequestLoop attemptResult (MAX_RETRIES + 1) 0).1,
           .admission ::
             ((makeRequestLoop attemptResult (MAX_RETRIES + 1) 0).2.map
               .httpAttempt),
           (makeRequestLoop attemptResult (MAX_RETRIES + 1) 0).2,
           [(final, c.tClean2)]⟩
        ∧ final.daily_count = s.daily_count + 1
        ∧ ∃ k, 1 ≤ k ∧ k ≤ MAX_RETRIES + 1
            ∧ (makeRequestLoop attemptResult (MAX_RETRIES + 1) 0).2
                = List.range' 0 k := by
  have hnr : ¬ s.daily_reset ≤ c.tState := by omega
  have hnq : ¬ QPD_LIMIT ≤ s.daily_count := by omega
  have hrl : waitForRateLimit (some s) nextMidnightUTC c
      = (.admitted ⟨s.daily_count + 1, s.daily_reset,
            cleanupTimestamps c.tClean2 (s.second_timestamps ++ [c.tAppend])⟩,
         [(⟨s.daily_count + 1, s.daily_reset,
            cleanupTimestamps c.tClean2 (s.second_timestamps ++ [c.tAppend])⟩,
           c.tClean2)]) := by
    simp [waitForRateLimit, getOrCreateRateLimitState, hnr, hnq]
  refine ⟨⟨s.daily_count + 1, s.daily_reset,
      cleanupTimestamps c.tClean2 (s.second_timestamps ++ [c.tAppend])⟩,
    ?_, rfl, ?_⟩
  · simp only [makeRequest, htok, hrl]
  · obtain ⟨k, hk, hk2, hk3⟩ :=
      makeRequestLoop_attempts attemptResult (MAX_RETRIES + 1) 0
    exact ⟨k, hk3 (by omega), hk2, hk⟩

/-- Witness for C10 at a concrete input: valid fresh tokens, an empty
limiter state, all clock samples at 0, and a first-attempt success. -/
theorem makeRequest_single_admission_witness :
    ∃ final,
      makeRequest (some sampleTokens) 0 true .networkError 0
          (some ⟨0, 86400000, []⟩) 86400000 ⟨0, 0, 0, 0, 0, 0⟩
          (fun _ => .success)
        = ⟨(makeRequestLoop (fun _ => .success) (MAX_RETRIES + 1) 0).1,
           .admission ::
             ((makeRequestLoop (fun _ => .success) (MAX_RETRIES + 1) 0).2.map
               .httpAttempt),
           (makeRequestLoop (fun _ => .success) (MAX_RETRIES + 1) 0).2,
           [(final, 0)]⟩
        ∧ final.daily_count = 0 + 1
        ∧ ∃ k, 1 ≤ k ∧ k ≤ MAX_RETRIES + 1
            ∧ (makeRequestLoop (fun _ => .success) (MAX_RETRIES + 1) 0).2
                = List.range' 0 k :=
  makeRequest_single_admission (some sampleTokens) 0 true .networkError 0
    ⟨0, 86400000, []⟩ 86400000 ⟨0, 0, 0, 0, 0, 0⟩ (fun _ => .success)
    sampleTokens rfl (by decide) (by decide)

end EtsyApp
